import Mathlib

/-!
Verification development for the EnjoyDailyLife repository
(src/convert_to_hls.py, src/stream_server.py, src/VOD-generate_m3u.py).

Each Python function that the specification's claims touch is translated
into an executable Lean definition (a shallow embedding).  I/O boundaries
(the network, the filesystem, the external ffmpeg transcoder, the
unidecode library) are passed in as explicit function parameters or
oracles, so the pure control flow of the source is preserved verbatim.
Machine text is modelled as lists of characters so that the Python string
operations used by the source (startswith, strip, lower, endswith,
split-once, membership) can be transliterated exactly.
-/

namespace ConvertToHls

/-- Configuration constant OUTPUT_DIR (convert_to_hls.py line 15). -/
def OUTPUT_DIR : String := "hls_output"

/-- Configuration constant BASE_GITHUB_URL (line 25). -/
def BASE_GITHUB_URL : String :=
  "https://raw.githubusercontent.com/bugsfreeweb/EnjoyDailyLife/main/hls_output"

/-- Configuration constant MAX_VIDEOS_PER_SOURCE (line 28). -/
def MAX_VIDEOS_PER_SOURCE : Nat := 50

/-- Configuration constant DEFAULT_LOGO (line 31). -/
def DEFAULT_LOGO : String := "https://via.placeholder.com/150"

/-- One parsed playlist entry, the tuple (url, english_title, logo, group)
appended at convert_to_hls.py line 96. -/
structure Entry where
  url : List Char
  title : List Char
  logo : List Char
  group : List Char
deriving DecidableEq, Repr

/-- Python str.strip / the whitespace class of the re module, restricted to
the ASCII whitespace characters (the only ones relevant to the playlist
grammar). -/
def isPySpace (c : Char) : Bool :=
  c == ' ' || c == '\t' || c == '\n' || c == '\r' || c == '\x0b' || c == '\x0c'

/-- Python str.strip(): drop whitespace from both ends. -/
def stripL (s : List Char) : List Char :=
  ((s.dropWhile isPySpace).reverse.dropWhile isPySpace).reverse

/-- Python str.startswith(p). -/
def startsWithL : List Char → List Char → Bool
  | [], _ => true
  | _ :: _, [] => false
  | p :: ps, c :: cs => p == c && startsWithL ps cs

/-- Python str.lower() on one character, for the ASCII range used by URL
extensions. -/
def lowerChar (c : Char) : Char :=
  if 'A' ≤ c && c ≤ 'Z' then Char.ofNat (c.toNat + 32) else c

/-- Python str.lower(). -/
def lowerL (s : List Char) : List Char := s.map lowerChar

/-- Python str.endswith(p). -/
def endsWithL (p s : List Char) : Bool := startsWithL p.reverse s.reverse

/-- The acceptance test of convert_to_hls.py line 93 (identical in
VOD-generate_m3u.py line 54): url.lower().endswith(('.mp4', '.mkv')). -/
def supportedUrl (url : List Char) : Bool :=
  endsWithL ".mp4".toList (lowerL url) || endsWithL ".mkv".toList (lowerL url)

/-- Python s.split(sep, 1)[1]: everything after the first occurrence of
sep (used at lines 83 and 86 guarded by a containment test). -/
def afterFirst (sep : Char) (s : List Char) : List Char :=
  (s.dropWhile (fun x => x != sep)).drop 1

/-- One anchored attempt of the regular expression
tvg-logo\s*=\s*"([^"]+)" at the head of cs (convert_to_hls.py line 87). -/
def matchLogoAt (cs : List Char) : Option (List Char) :=
  if cs.take 8 = "tvg-logo".toList then
    match (cs.drop 8).dropWhile isPySpace with
    | '=' :: r2 =>
      match r2.dropWhile isPySpace with
      | '"' :: r3 =>
        let cap := r3.takeWhile (fun c => c != '"')
        if cap ≠ [] ∧ r3.drop cap.length ≠ [] then some cap else none
      | _ => none
    | _ => none
  else none

/-- re.search of the pattern above: the leftmost position at which the
anchored attempt succeeds. -/
def findLogo : List Char → Option (List Char)
  | [] => none
  | c :: cs =>
    match matchLogoAt (c :: cs) with
    | some s => some s
    | none => findLogo cs

/-- The parsing while-loop of fetch_m3u_urls (convert_to_hls.py lines
81-99; the loop of VOD-generate_m3u.py lines 42-60 is line-for-line
identical).  The list argument is the document split into lines
(content.splitlines()); group is the running group label; acc is the urls
accumulator.  The unidec parameter models the external unidecode
transliteration (line 89).  A continue inside the EXTINF branch (line 95)
re-enters the loop with the index still pointing at the rejected URL
line, which is modelled by recursing on the unshortened tail; the
try/except IndexError at lines 85-98 is dead code because every indexing
is guarded, so it has no counterpart here. -/
def parseLoop (unidec : List Char → List Char) :
    List (List Char) → List Char → List Entry → List Entry
  | [], _, acc => acc
  | l :: rest, group, acc =>
    if startsWithL "#EXTGRP".toList l then
      parseLoop unidec rest
        (if l.contains ':' then stripL (afterFirst ':' l) else group) acc
    else if startsWithL "#EXTINF".toList l then
      let title := if l.contains ',' then stripL (afterFirst ',' l)
        else "Video_".toList ++ (toString (acc.length + 1)).toList
      let logo := (findLogo l).getD DEFAULT_LOGO.toList
      let etitle := unidec title
      match h : rest with
      | [] => acc
      | u :: rest2 =>
        if (stripL u).isEmpty = false ∧ startsWithL "#".toList u = false then
          let url := stripL u
          if supportedUrl url = false then
            parseLoop unidec rest group acc
          else
            parseLoop unidec rest2 group (acc ++ [⟨url, etitle, logo, group⟩])
        else
          parseLoop unidec rest2 group acc
    else
      parseLoop unidec rest group acc
termination_by lines => lines.length
decreasing_by all_goals simp_all <;> omega


/-- fetch_m3u_urls of convert_to_hls.py (lines 71-101) after the document
has been fetched and split into lines: run the parse loop with the
per-source initial group, then truncate to MAX_VIDEOS_PER_SOURCE
(line 101). -/
def fetch_m3u_urls (unidec : List Char → List Char) (lines : List (List Char))
    (group0 : List Char) : List Entry :=
  (parseLoop unidec lines group0 []).take MAX_VIDEOS_PER_SOURCE

/-- fetch_m3u_urls of VOD-generate_m3u.py (lines 32-62): the same loop,
but the full list is returned without truncation (line 62). -/
def fetch_m3u_urls_vod (unidec : List Char → List Char) (lines : List (List Char))
    (group0 : List Char) : List Entry :=
  parseLoop unidec lines group0 []

/-- A playlist entry as the pipeline half of convert_to_hls.py consumes
it: the (url, title, logo, group) tuples handed to process_video.  Plain
strings suffice here because the pipeline never inspects the characters. -/
structure EntryS where
  url : String
  title : String
  logo : String
  group : String
deriving DecidableEq, Repr

/-- One record of the converted_videos ledger (the JSON document keyed by
url).  Loaded records are read back with dict.get, so every field may be
absent; records written by the current run (lines 296-304) populate all of
them. -/
structure LedgerRec where
  m3u8_file : Option String := none
  video_id : Option Nat := none
  source : Option String := none
  github_m3u8_url : Option String := none
  title : Option String := none
  logo : Option String := none
  group : Option String := none
deriving DecidableEq, Repr

/-- The result dict built by process_video on full success (lines
205-214). -/
structure WorkerResult where
  url : String
  m3u8_file : String
  video_id : Nat
  source : String
  github_m3u8_url : String
  title : String
  logo : String
  group : String
deriving DecidableEq, Repr

/-- Python truthiness of an optional string: present and non-empty. -/
def truthy : Option String → Bool
  | some s => s ≠ ""
  | none => false

/-- Dictionary lookup on the ledger modelled as an association list in
insertion order (keys are unique in a Python dict). -/
def lookupLedger (ledger : List (String × LedgerRec)) (u : String) :
    Option LedgerRec :=
  (ledger.find? (fun p => p.1 = u)).map Prod.snd

/-- Dictionary assignment converted_videos[url] = rec: overwrite in place
when the key exists, otherwise append, preserving insertion order. -/
def insertLedger (ledger : List (String × LedgerRec)) (u : String)
    (r : LedgerRec) : List (String × LedgerRec) :=
  if (ledger.find? (fun p => p.1 = u)).isSome then
    ledger.map (fun p => if p.1 = u then (u, r) else p)
  else
    ledger ++ [(u, r)]

/-- The indices of the download attempts that the for-loop of
download_video (lines 112-125) actually performs, driven by an oracle
giving the outcome of each attempt: attempts run from 0, and the loop
stops after the first success or after index retries. -/
def downloadAttemptsGo (oracle : Nat → Bool) : Nat → Nat → List Nat
  | _, 0 => []
  | k, fuel + 1 => k :: (if oracle k then [] else downloadAttemptsGo oracle (k + 1) fuel)

/-- The attempt indices performed by download_video(url, path, retries):
range(retries + 1) cut short at the first success. -/
def download_attempts (oracle : Nat → Bool) (retries : Nat) : List Nat :=
  downloadAttemptsGo oracle 0 (retries + 1)

/-- The boolean download_video returns (lines 117 and 127): true exactly
when some performed attempt succeeded. -/
def download_video (oracle : Nat → Bool) (retries : Nat) : Bool :=
  (download_attempts oracle retries).any oracle

/-- The number of fixed 0.5 s sleeps download_video performs (lines
120-121 and 124-125): one after every failed attempt whose index is below
retries. -/
def download_sleeps (oracle : Nat → Bool) (retries : Nat) : Nat :=
  ((download_attempts oracle retries).filter
    (fun k => !oracle k && decide (k < retries))).length

/-- os.path.relpath(m3u8_file, OUTPUT_DIR) as used by
create_permanent_m3u (line 158) for the only paths the program builds,
namely paths below OUTPUT_DIR; os.sep is "/" so the replace at line 159
is the identity. -/
def relpathFromOutput (p : String) : String :=
  if p.startsWith (OUTPUT_DIR ++ "/") then p.drop (OUTPUT_DIR.length + 1) else p

/-- The externally reachable manifest URL computed at line 159. -/
def githubUrlOf (m3u8_file : String) : String :=
  BASE_GITHUB_URL ++ "/" ++ relpathFromOutput m3u8_file

/-- The metadata line appended in front of each published URL (lines 215,
248 and 252). -/
def extinfLine (logo group title : String) : String :=
  "#EXTINF:-1 tvg-logo=\"" ++ logo ++ "\" group-title=\"" ++ group ++ "\"," ++ title

/-- The observable side effects of one process_video call, in order. -/
inductive Act where
  | validate
  | download
  | transcode
  | writeMaster
deriving DecidableEq, Repr

/-- The environment a worker runs against: validate_url (line 62),
the per-attempt download outcome for a url, the transcoder outcome for a
url (convert_to_hls, lines 129-153: some manifest path or failure), and
os.path.exists.  create_permanent_m3u only fails on an I/O exception
(lines 165-167), which the pure model does not raise, so it always
succeeds here. -/
structure PEnv where
  validate : String → Bool
  dlAttempt : String → Nat → Bool
  transcodeOk : String → Bool
  disk : String → Bool

/-- The terminal-success test of lines 187-189 (and identically lines
271-273): the url has a record whose m3u8_file entry is truthy and whose
file still exists. -/
def terminalSuccess (disk : String → Bool) (ledger : List (String × LedgerRec))
    (u : String) : Bool :=
  match lookupLedger ledger u with
  | some info => truthy info.m3u8_file && disk (info.m3u8_file.getD "")
  | none => false

/-- process_video (convert_to_hls.py lines 178-227), as the pair of its
returned value and the ordered list of its observable effects.  The
counter argument c is the value of video_id_counter the caller passed at
submission time (line 284), and the ledger is the converted_videos dict,
which is not mutated before line 295, so len(converted_videos) is the
ledger length throughout the run.  The temp-file cleanup in the finally
block only touches the transient file and is not an observable effect
here. -/
def process_video (env : PEnv) (ledger : List (String × LedgerRec)) (c : Nat)
    (e : EntryS) (source_name : String) : Option WorkerResult × List Act :=
  let video_id := ledger.length + c + 1
  let output_folder := OUTPUT_DIR ++ "/" ++ source_name ++ "/video_" ++ toString video_id
  if terminalSuccess env.disk ledger e.url then
    (none, [])
  else if env.validate e.url = false then
    (none, [Act.validate])
  else if download_video (env.dlAttempt e.url) 4 then
    if env.transcodeOk e.url then
      let m3u8_file := output_folder ++ "/playlist.m3u8"
      let github := githubUrlOf m3u8_file
      (some { url := e.url, m3u8_file := m3u8_file, video_id := video_id,
              source := source_name, github_m3u8_url := github,
              title := e.title, logo := e.logo, group := e.group },
       [Act.validate, Act.download, Act.transcode, Act.writeMaster])
    else
      (none, [Act.validate, Act.download, Act.transcode])
  else
    (none, [Act.validate, Act.download])

/-- The per-source filter of main (lines 269-279): keep a fetched entry
unless the ledger already classifies its url as terminal-success, then cap
at MAX_VIDEOS_PER_SOURCE. -/
def filter_new_urls (disk : String → Bool) (ledger : List (String × LedgerRec))
    (entries : List EntryS) : List EntryS :=
  (entries.filter (fun e => !terminalSuccess disk ledger e.url)).take
    MAX_VIDEOS_PER_SOURCE

/-- One source iteration of main (lines 282-292): every filtered entry is
submitted with the same captured value c of video_id_counter, and the
source contributes the worker results that are not None.  The ids the
workers compute do not depend on completion order (each worker only reads
the c it was handed), so listing results in submission order loses no
information about granted ids. -/
def run_source (env : PEnv) (ledger : List (String × LedgerRec)) (c : Nat)
    (entries : List EntryS) (source_name : String) : List WorkerResult :=
  (filter_new_urls env.disk ledger entries).filterMap
    (fun e => (process_video env ledger c e source_name).1)

/-- The loop over SOURCES (lines 264-292): after each source completes,
video_id_counter has been incremented once per collected result
(line 292), and that new value is what the next source's submissions
capture. -/
def run_sources (env : PEnv) (ledger : List (String × LedgerRec)) :
    List (String × List EntryS) → Nat → List WorkerResult
  | [], _ => []
  | (source_name, entries) :: rest, c =>
    let rs := run_source env ledger c entries source_name
    rs ++ run_sources env ledger rest (c + rs.length)

/-- The ledger record main writes for a successful worker result (lines
295-304). -/
def recOfResult (v : WorkerResult) : LedgerRec :=
  { m3u8_file := some v.m3u8_file, video_id := some v.video_id,
    source := some v.source, github_m3u8_url := some v.github_m3u8_url,
    title := some v.title, logo := some v.logo, group := some v.group }

/-- The converted_videos update loop of main (lines 294-304). -/
def updateConverted (ledger : List (String × LedgerRec))
    (new_videos : List WorkerResult) : List (String × LedgerRec) :=
  new_videos.foldl (fun acc v => insertLedger acc v.url (recOfResult v)) ledger

/-- Python str(x) for the optional video_id as interpolated into the
default title f-string at line 241: a missing key prints as None. -/
def pyOptNat : Option Nat → String
  | some n => toString n
  | none => "None"

/-- The pair of lines the existing-videos loop of main (lines 237-255)
appends for one ledger record, or nothing when the record is dropped.
When the stored manifest is truthy and still on disk, create_permanent_m3u
recomputes the published URL from it (line 246); otherwise a record with a
truthy stored github_m3u8_url is retained as-is with a warning (lines
251-255); otherwise the record contributes nothing. -/
def existingEmit (disk : String → Bool) (r : LedgerRec) : List (String × String) :=
  let title := r.title.getD ("Video_" ++ pyOptNat r.video_id)
  let logo := r.logo.getD DEFAULT_LOGO
  let group := r.group.getD "Unknown"
  if truthy r.m3u8_file && disk (r.m3u8_file.getD "") then
    [(extinfLine logo group title, githubUrlOf (r.m3u8_file.getD ""))]
  else if truthy r.github_m3u8_url then
    [(extinfLine logo group title, r.github_m3u8_url.getD "")]
  else
    []

/-- The pair of lines process_video appends for one successful conversion
(lines 215-216). -/
def successEmit (v : WorkerResult) : String × String :=
  (extinfLine v.logo v.group v.title, v.github_m3u8_url)

/-- Every (metadata line, url line) item the run appends to
master_m3u_content, tagged with the source url responsible for it: first
the existing-videos loop over the ledger in insertion order (lines
237-255), then one item per success in completion order (lines 215-216).
All of these are present in the final document written at line 308. -/
def mainEmits (disk : String → Bool) (ledger : List (String × LedgerRec))
    (succs : List WorkerResult) : List (String × (String × String)) :=
  ledger.flatMap (fun p => (existingEmit disk p.2).map (fun it => (p.1, it)))
    ++ succs.map (fun v => (v.url, successEmit v))

/-- The full master_m3u_content list at the end of the run: the header
set at line 232 followed by the emitted items flattened into their two
lines each. -/
def masterLines (disk : String → Bool) (ledger : List (String × LedgerRec))
    (succs : List WorkerResult) : List String :=
  "#EXTM3U" :: (mainEmits disk ledger succs).flatMap (fun t => [t.2.1, t.2.2])

/-- The document write_partial_master_m3u renders (line 173). -/
def renderMaster (content : List String) : String :=
  String.intercalate "\n" content

/-- The sequence of contents of FINAL_M3U that a concurrent reader (or a
crash) can observe across one write_partial_master_m3u call (lines
169-176): the previous content, then the empty file the moment
open(FINAL_M3U, "w") truncates it in place, then the fully written new
document.  There is no temp-file-plus-rename step in the source. -/
def commitObservableStates (prev : String) (content : List String) : List String :=
  [prev, "", renderMaster content]

/-- A JSON document as json.load returns it; numeric detail is irrelevant
to the ledger claims. -/
inductive Json where
  | obj (kvs : List (String × Json))
  | arr (xs : List Json)
  | str (s : String)
  | num (n : Int)
  | bool (b : Bool)
  | null

/-- Whether a JSON document is a mapping. -/
def Json.isObj : Json → Bool
  | .obj _ => true
  | _ => false

/-- The three states the CONVERTED_LOG file can be in when
load_converted_videos runs: absent, present but rejected by json.load, or
present and parsed to a document. -/
inductive LedgerFile where
  | missing
  | unparsable
  | parsed (doc : Json)

/-- load_converted_videos (convert_to_hls.py lines 42-51): an absent file
yields the empty dict (line 48), a json.load failure is caught, logged and
yields the empty dict (lines 49-51), and a parsed file yields whatever
document json.load produced (line 47).  Every branch returns; nothing
escapes the except clause. -/
def load_converted_videos : LedgerFile → Json
  | .missing => .obj []
  | .unparsable => .obj []
  | .parsed d => d

end ConvertToHls

namespace StreamServer

/-- Configuration constant OUTPUT_DIR (stream_server.py line 14). -/
def OUTPUT_DIR : String := "hls_output"

/-- Configuration constant MAX_CACHE_SIZE_MB (line 17). -/
def MAX_CACHE_SIZE_MB : Nat := 1000

/-- load_metadata (stream_server.py lines 22-31) has exactly the structure
of load_converted_videos: missing file and parse failure both degrade to
the empty dict, and a parsed file is returned as-is. -/
def load_metadata : ConvertToHls.LedgerFile → ConvertToHls.Json
  | .missing => .obj []
  | .unparsable => .obj []
  | .parsed d => d

/-- One file inside the HLS cache: name and size in bytes. -/
structure FileEnt where
  name : String
  size : Nat
deriving DecidableEq, Repr

/-- One directory of the HLS cache tree with its last-modified time. -/
inductive DirTree where
  | node (name : String) (mtime : Nat) (files : List FileEnt) (subs : List DirTree)

/-- Last-modified time of a directory (os.path.getmtime, line 86). -/
def DirTree.mtime : DirTree → Nat
  | .node _ m _ _ => m

/-- Name accessor. -/
def DirTree.name : DirTree → String
  | .node n _ _ _ => n

/-- Immediate child directories of a directory. -/
def DirTree.subs : DirTree → List DirTree
  | .node _ _ _ s => s

mutual

/-- Total size in bytes of every file under a directory, at every depth:
the sum the os.walk loop of clean_cache accumulates (lines 79-82). -/
def DirTree.totalBytes : DirTree → Nat
  | .node _ _ fs subs => (fs.map FileEnt.size).sum + totalBytesList subs

/-- Helper for the nested recursion over the child list. -/
def totalBytesList : List DirTree → Nat
  | [] => 0
  | t :: ts => t.totalBytes + totalBytesList ts

end

mutual

/-- The directories os.walk(root) appends to the folders list (lines
83-84), in walk order: the immediate children of the visited directory
first, then, child by child, the children of each subtree.  os.walk is
depth-first, descending fully into one child before the next. -/
def DirTree.walkDirs : DirTree → List DirTree
  | .node _ _ _ subs => subs ++ walkDirsList subs

/-- Helper for the nested recursion over the child list. -/
def walkDirsList : List DirTree → List DirTree
  | [] => []
  | t :: ts => t.walkDirs ++ walkDirsList ts

end

/-- The strict budget comparison of line 85.  The source sums each file
size divided by 1024*1024 and compares the sum with MAX_CACHE_SIZE_MB; in
exact arithmetic that is the same as comparing the byte total with
MAX_CACHE_SIZE_MB * 1024 * 1024. -/
def overBudget (root : DirTree) : Bool :=
  decide (MAX_CACHE_SIZE_MB * 1024 * 1024 < root.totalBytes)

/-- The list clean_cache selects for recursive deletion (lines 85-87):
nothing when the byte total does not exceed the budget; otherwise the
first half (by count, floor) of all walked directories after the stable
sort by last-modified time. -/
def foldersToDelete (root : DirTree) : List DirTree :=
  if overBudget root then
    (root.walkDirs.mergeSort (fun a b => decide (a.mtime ≤ b.mtime))).take
      (root.walkDirs.length / 2)
  else
    []

/-- What a request to /stream/<video_id> produces. -/
inductive StreamResp where
  | file (path : String)
  | notFound
  | failedToProcess
  | nameError
deriving DecidableEq, Repr

/-- The observable external effects of one stream request. -/
inductive SAct where
  | download
  | transcode
  | cleanCache
deriving DecidableEq, Repr

/-- The /stream/<video_id> handler (stream_server.py lines 98-126).  The
metadata store maps the id to its source url.  If the id is unknown the
handler returns the 404 response (lines 102-103).  If the cached manifest
exists it is served directly (lines 110-112).  Otherwise line 114
evaluates time.time(), but stream_server.py never imports the time
module, so a NameError is raised before the try block is entered; the
download, transcode and clean_cache calls at lines 116-121 are
unreachable, and Flask turns the uncaught NameError into a 500 response.
No external effect happens on any path. -/
def stream (metadata : List (String × String)) (disk : String → Bool)
    (video_id : String) : StreamResp × List SAct :=
  match (metadata.find? (fun p => p.1 = video_id)).map Prod.snd with
  | none => (.notFound, [])
  | some _url =>
    let m3u8_file := OUTPUT_DIR ++ "/" ++ video_id ++ "/playlist.m3u8"
    if disk m3u8_file then (.file m3u8_file, [])
    else (.nameError, [])

end StreamServer

open ConvertToHls StreamServer

/-- A worker environment in which every download attempt of every url
fails, the url validates, and the transcoder would succeed. -/
def envAllFail : PEnv :=
  ⟨fun _ => true, fun _ _ => false, fun _ => true, fun _ => false⟩

/-- A concrete cache state over budget by one byte: the root holds one
big file, one immediate child directory (mtime 2) and, nested inside it,
one grandchild directory (mtime 1). -/
def cacheOverBudget : DirTree :=
  .node "hls_output" 10 [⟨"big.ts", 1048576001⟩]
    [.node "video_1" 2 [] [.node "sub" 1 [] []]]

/-- C1: every worker submitted for one source captures the value
video_id_counter had when the batch was dispatched (line 284), and
len(converted_videos) is frozen until after all sources finish, so with an
empty ledger and one source batch of two entries that both download and
transcode successfully, both conversions are granted assetId 1: the ids
are not distinct, contradicting the claimed
count(records) + count(granted so far) + 1 assignment. -/
theorem c1_duplicate_asset_ids_on_concrete_run :
    (run_sources ⟨fun _ => true, fun _ _ => true, fun _ => true, fun _ => false⟩
        [] [("source_1", [⟨"http://h/a.mp4", "A", "l", "g"⟩,
                          ⟨"http://h/b.mp4", "B", "l", "g"⟩])] 0).map
      WorkerResult.video_id = [1, 1] ∧ ¬ ([1, 1] : List Nat).Nodup :=
  ⟨rfl, by decide⟩

/-- C2 counterexample: write_partial_master_m3u opens the destination
with mode "w", which truncates it in place before the new document is
written, so the observable empty intermediate state is neither the
previous valid snapshot nor the new one. -/
theorem c2_truncated_state_observable :
    "" ∈ commitObservableStates "#EXTM3U\nold" ["#EXTM3U"] ∧
    "" ≠ "#EXTM3U\nold" ∧ "" ≠ renderMaster ["#EXTM3U"] := by
  refine ⟨by simp [commitObservableStates], by decide, by decide⟩

/-- C2 amended: a commit writes the whole rendered document in one pass
with overwrite semantics, so after the call returns the destination holds
the full new snapshot; but the write is in-place (truncate, then write),
so the empty truncated state is observable mid-commit. -/
theorem c2_commit_overwrite_and_truncation (prev : String) (content : List String) :
    (commitObservableStates prev content).getLast? = some (renderMaster content) ∧
    "" ∈ commitObservableStates prev content := by
  exact ⟨rfl, by simp [commitObservableStates]⟩

/-- C2 amended, witnessed at a concrete commit. -/
theorem c2_commit_overwrite_and_truncation_witness :
    (commitObservableStates "#EXTM3U\nold" ["#EXTM3U"]).getLast? =
      some (renderMaster ["#EXTM3U"]) ∧
    "" ∈ commitObservableStates "#EXTM3U\nold" ["#EXTM3U"] :=
  c2_commit_overwrite_and_truncation "#EXTM3U\nold" ["#EXTM3U"]

/-- C5: evaluating the /stream handler at the failing input.  For an
assetId known to the metadata store but without a cached manifest, the
handler hits the NameError of line 114 (the time module is never
imported) and yields the 500-equivalent without attempting any download,
transcode or eviction; the cache-hit and unknown-id paths behave as
claimed. -/
theorem c5_stream_cache_miss_name_error :
    stream [("v1", "http://h/a.mp4")] (fun _ => false) "v1"
      = (StreamResp.nameError, []) ∧
    stream [("v1", "http://h/a.mp4")] (fun _ => true) "v1"
      = (StreamResp.file "hls_output/v1/playlist.m3u8", []) ∧
    stream [("v1", "http://h/a.mp4")] (fun _ => false) "v2"
      = (StreamResp.notFound, []) :=
  ⟨rfl, rfl, rfl⟩

/-- C9 counterexample: a ledger file that parses to a JSON array is
returned as-is by load_converted_videos, so load() does not return a
mapping in every non-raising case. -/
theorem c9_parsed_array_is_not_a_mapping :
    (load_converted_videos (LedgerFile.parsed (Json.arr []))).isObj = false := rfl

/-- C9 amended: load() is total (never raises): a missing ledger file and
an unparsable ledger file both yield the empty mapping, a file parsed to
a JSON object yields that mapping unchanged, and load_metadata of the
serving path behaves identically. -/
theorem c9_load_degrades_to_empty_mapping (st : LedgerFile) :
    (st = LedgerFile.missing → load_converted_videos st = Json.obj []) ∧
    (st = LedgerFile.unparsable → load_converted_videos st = Json.obj []) ∧
    (∀ kvs, st = LedgerFile.parsed (Json.obj kvs) →
      load_converted_videos st = Json.obj kvs) ∧
    load_metadata st = load_converted_videos st := by
  cases st with
  | missing =>
    refine ⟨fun _ => rfl, fun h => ?_, fun kvs h => ?_, rfl⟩ <;> exact nomatch h
  | unparsable =>
    refine ⟨fun h => ?_, fun _ => rfl, fun kvs h => ?_, rfl⟩ <;> exact nomatch h
  | parsed d =>
    refine ⟨fun h => ?_, fun h => ?_, fun kvs h => ?_, rfl⟩
    · exact nomatch h
    · exact nomatch h
    · cases h; rfl

/-- C6 counterexample: with every download attempt failing, the worker
performs 5 attempts (the source default is retries=4, line 109), not the
4 attempts that a budget of 3 retries would give; and after the run the
ledger holds no record at all for the failed url, rather than a retryable
record. -/
theorem c6_five_attempts_and_no_ledger_record :
    (download_attempts ((fun _ => false) : Nat → Bool) 4).length = 5 ∧
    lookupLedger
      (updateConverted []
        (run_sources envAllFail []
          [("source_1", [⟨"http://h/a.mp4", "A", "l", "g"⟩])] 0))
      "http://h/a.mp4" = none :=
  ⟨rfl, rfl⟩

/-- Overwriting the record of one ledger key does not change which pair a
search for a different key finds. -/
theorem find_overwrite_other_key (u u' : String) (r : LedgerRec) (h : u' ≠ u) :
    ∀ l : List (String × LedgerRec),
      List.find? (fun p => p.1 = u) (l.map (fun p => if p.1 = u' then (u', r) else p)) =
        List.find? (fun p => p.1 = u) l := by
  intro l
  induction l with
  | nil => rfl
  | cons p tl ih =>
    by_cases hq : p.1 = u'
    · have hp : ¬ (p.1 = u) := fun hc => h (hq.symm.trans hc)
      simp only [List.map_cons, hq, if_pos, List.find?_cons]
      simp only [decide_eq_true_eq] at *
      simp [h, hp, ih]
    · simp only [List.map_cons, hq, if_neg, ite_false, List.find?_cons]
      by_cases hp : p.1 = u
      · simp [hp]
      · simp [hp, ih]

/-- Overwriting one key of the ledger leaves lookups of other keys
unchanged. -/
theorem lookupLedger_insertLedger_ne (l : List (String × LedgerRec))
    (u u' : String) (r : LedgerRec) (h : u' ≠ u) :
    lookupLedger (insertLedger l u' r) u = lookupLedger l u := by
  unfold insertLedger
  split
  · unfold lookupLedger
    rw [find_overwrite_other_key u u' r h l]
  · unfold lookupLedger
    rw [List.find?_append]
    cases hfind : List.find? (fun p => decide (p.1 = u)) l with
    | some q => simp
    | none => simp [List.find?, Ne.symm h, h]

/-- A run that produced no successful result for a url leaves that url's
ledger entry exactly as it was. -/
theorem lookupLedger_updateConverted_ne (u : String) :
    ∀ (vs : List WorkerResult) (l : List (String × LedgerRec)),
      (∀ v ∈ vs, v.url ≠ u) →
      lookupLedger (updateConverted l vs) u = lookupLedger l u := by
  intro vs
  induction vs with
  | nil => intro l _; rfl
  | cons v tl ih =>
    intro l hv
    have h1 : v.url ≠ u := hv v (by simp)
    have hupd : updateConverted l (v :: tl) =
        updateConverted (insertLedger l v.url (recOfResult v)) tl := rfl
    rw [hupd, ih _ (fun w hw => hv w (by simp [hw])),
      lookupLedger_insertLedger_ne _ _ _ _ h1]

/-- C6 amended: when every download attempt for an entry fails, the
worker makes 5 attempts (a budget of 4 retries), sleeping the fixed delay
after each of the first 4 failures, then yields the download-failure
outcome (result None); and the run writes no ledger record for the entry:
its ledger entry after the update loop is whatever it was before, so a
later run still treats the url as unconverted and retries it. -/
theorem c6_download_exhaustion_leaves_ledger_unchanged (env : PEnv)
    (ledger : List (String × LedgerRec)) (c : Nat) (e : EntryS) (s : String)
    (vs : List WorkerResult)
    (hfail : ∀ k, env.dlAttempt e.url k = false)
    (hvs : ∀ v ∈ vs, v.url ≠ e.url) :
    download_attempts (env.dlAttempt e.url) 4 = [0, 1, 2, 3, 4] ∧
    download_video (env.dlAttempt e.url) 4 = false ∧
    download_sleeps (env.dlAttempt e.url) 4 = 4 ∧
    (process_video env ledger c e s).1 = none ∧
    lookupLedger (updateConverted ledger vs) e.url = lookupLedger ledger e.url := by
  have hatt : download_attempts (env.dlAttempt e.url) 4 = [0, 1, 2, 3, 4] := by
    simp [download_attempts, downloadAttemptsGo, hfail]
  have hdl : download_video (env.dlAttempt e.url) 4 = false := by
    simp [download_video, hatt, hfail]
  refine ⟨hatt, hdl, ?_, ?_, lookupLedger_updateConverted_ne _ _ _ hvs⟩
  · simp [download_sleeps, hatt, hfail]
  · simp only [process_video, hdl]
    split_ifs <;> simp_all

/-- C6 amended, witnessed with the all-failures environment, an empty
ledger and an empty success set. -/
theorem c6_download_exhaustion_witness :
    download_attempts (envAllFail.dlAttempt "http://h/a.mp4") 4 = [0, 1, 2, 3, 4] ∧
    download_video (envAllFail.dlAttempt "http://h/a.mp4") 4 = false ∧
    download_sleeps (envAllFail.dlAttempt "http://h/a.mp4") 4 = 4 ∧
    (process_video envAllFail [] 0 ⟨"http://h/a.mp4", "A", "l", "g"⟩ "source_1").1 = none ∧
    lookupLedger (updateConverted [] []) "http://h/a.mp4" =
      lookupLedger [] "http://h/a.mp4" :=
  c6_download_exhaustion_leaves_ledger_unchanged envAllFail [] 0
    ⟨"http://h/a.mp4", "A", "l", "g"⟩ "source_1" []
    (fun _ => rfl) (fun v hv => absurd hv (List.not_mem_nil v))

/-- C4: an entry the ledger classifies as terminal-success (record whose
truthy m3u8_file still exists on disk) is excluded by the per-source
filter of main before submission, and even a directly invoked worker
returns the skipped outcome with no observable effect at all: no
validation, no download attempt, no transcode. -/
theorem c4_terminal_success_is_skipped (env : PEnv)
    (ledger : List (String × LedgerRec)) (c : Nat) (e : EntryS)
    (sname : String) (entries : List EntryS)
    (hterm : terminalSuccess env.disk ledger e.url = true) :
    e ∉ filter_new_urls env.disk ledger entries ∧
    process_video env ledger c e sname = (none, []) := by
  constructor
  · intro hmem
    have hf := List.take_subset MAX_VIDEOS_PER_SOURCE _ hmem
    have := (List.mem_filter.mp hf).2
    simp [hterm] at this
  · simp [process_video, hterm]

/-- C4 witnessed at a one-record ledger whose manifest exists on disk. -/
theorem c4_terminal_success_is_skipped_witness :
    (⟨"u", "T", "L", "G"⟩ : EntryS) ∉
      filter_new_urls (fun _ => true)
        [("u", { m3u8_file := some "hls_output/source_1/video_1/playlist.m3u8" })]
        [⟨"u", "T", "L", "G"⟩] ∧
    process_video ⟨fun _ => true, fun _ _ => true, fun _ => true, fun _ => true⟩
      [("u", { m3u8_file := some "hls_output/source_1/video_1/playlist.m3u8" })]
      0 ⟨"u", "T", "L", "G"⟩ "source_1" = (none, []) :=
  c4_terminal_success_is_skipped
    ⟨fun _ => true, fun _ _ => true, fun _ => true, fun _ => true⟩
    [("u", { m3u8_file := some "hls_output/source_1/video_1/playlist.m3u8" })]
    0 ⟨"u", "T", "L", "G"⟩ "source_1" [⟨"u", "T", "L", "G"⟩] (by decide)

/-- A string that does not start with a character does not start with any
longer pattern opening with that character. -/
theorem startsWithL_cons_of_single {c : Char} {p s : List Char}
    (h : startsWithL [c] s = false) : startsWithL (c :: p) s = false := by
  cases s with
  | nil => rfl
  | cons a as =>
    simp only [startsWithL, Bool.and_true] at h
    simp [startsWithL, h]

/-- C8: an entry-info line whose following URL line is non-blank, is not
a directive, and does not end (case-insensitively) in .mp4 or .mkv
contributes no entry: the parse continues on the rest of the document
exactly as if the two lines were absent, with the accumulated entries and
the current group untouched, so later valid entries are still produced in
document order and nothing about the dropped entry is recorded. -/
theorem c8_unsupported_extension_dropped (unidec : List Char → List Char)
    (g : List Char) (acc : List Entry) (ext bad : List Char)
    (rest : List (List Char))
    (h1 : startsWithL "#EXTGRP".toList ext = false)
    (h2 : startsWithL "#EXTINF".toList ext = true)
    (h3 : (stripL bad).isEmpty = false)
    (h4 : startsWithL "#".toList bad = false)
    (h5 : supportedUrl (stripL bad) = false) :
    parseLoop unidec (ext :: bad :: rest) g acc = parseLoop unidec rest g acc := by
  have a1 : startsWithL ['#', 'E', 'X', 'T', 'G', 'R', 'P'] ext = false := h1
  have a2 : startsWithL ['#', 'E', 'X', 'T', 'I', 'N', 'F'] ext = true := h2
  have a3 : ¬ stripL bad = [] := by simpa using h3
  have a4 : startsWithL ['#'] bad = false := h4
  have a5 : supportedUrl (stripL bad) = false := h5
  have a6 : startsWithL ['#', 'E', 'X', 'T', 'G', 'R', 'P'] bad = false :=
    startsWithL_cons_of_single a4
  have a7 : startsWithL ['#', 'E', 'X', 'T', 'I', 'N', 'F'] bad = false :=
    startsWithL_cons_of_single a4
  rw [parseLoop]
  simp only [a3, a5, List.isEmpty_eq_false, ne_eq, not_false_eq_true, true_and,
    if_pos, if_true]
  rw [if_neg (by simp [a1]), if_pos h2, if_pos h4]
  rw [parseLoop]
  have a6' : startsWithL "#EXTGRP".toList bad = false := a6
  have a7' : startsWithL "#EXTINF".toList bad = false := a7
  rw [if_neg (by simpa using a6'), if_neg (by simpa using a7')]

/-- C8 witnessed on a concrete document: an entry-info line followed by a
.avi URL parses to the same entry list as the empty document. -/
theorem c8_unsupported_extension_dropped_witness :
    parseLoop id ["#EXTINF:-1,A".toList, "http://h/x.avi".toList] "G".toList [] =
      parseLoop id [] "G".toList [] :=
  c8_unsupported_extension_dropped id "G".toList [] "#EXTINF:-1,A".toList
    "http://h/x.avi".toList [] (by decide) (by decide) (by decide) (by decide)
    (by decide)

/-- Every entry the parse loop ever appends has passed the extension
check, so if every accumulated entry has a supported URL so does every
entry of the result. -/
theorem parseLoop_supported (unidec : List Char → List Char) :
    ∀ (lines : List (List Char)) (g : List Char) (acc : List Entry),
      (∀ e ∈ acc, supportedUrl e.url = true) →
      ∀ e ∈ parseLoop unidec lines g acc, supportedUrl e.url = true := by
  intro lines g acc
  induction lines, g, acc using parseLoop.induct unidec with
  | case1 g acc =>
    intro hacc e he
    rw [parseLoop] at he
    exact hacc e he
  | case2 l rest g acc hgrp ih =>
    intro hacc e he
    rw [parseLoop] at he
    rw [if_pos hgrp] at he
    exact ih hacc e he
  | case3 l g acc hgrp hinf =>
    intro hacc e he
    rw [parseLoop] at he
    rw [if_neg hgrp, if_pos hinf] at he
    exact hacc e he
  | case4 l g acc hgrp hinf u rest2 hcond url hsup ih =>
    intro hacc e he
    rw [parseLoop] at he
    rw [if_neg hgrp, if_pos hinf] at he
    simp only [if_pos hcond, if_pos hsup] at he
    exact ih hacc e he
  | case5 l g acc hgrp hinf title logo etitle u rest2 hcond url hsup ih =>
    intro hacc e he
    rw [parseLoop] at he
    rw [if_neg hgrp, if_pos hinf] at he
    simp only [if_pos hcond, if_neg hsup] at he
    refine ih ?_ e he
    intro e' he'
    rcases List.mem_append.mp he' with hold | hnew
    · exact hacc e' hold
    · rw [List.mem_singleton.mp hnew]
      exact Bool.ne_false_iff.mp hsup
  | case6 l g acc hgrp hinf u rest2 hcond ih =>
    intro hacc e he
    rw [parseLoop] at he
    rw [if_neg hgrp, if_pos hinf] at he
    simp only [if_neg hcond] at he
    exact ih hacc e he
  | case7 l rest g acc hgrp hinf ih =>
    intro hacc e he
    rw [parseLoop] at he
    rw [if_neg hgrp, if_neg hinf] at he
    exact ih hacc e he

/-- C10: for every input document (already split into lines) the parse
loop is a total function — the embedding terminates on all inputs, which
is the loop-termination half of the claim — and every entry either
fetch_m3u_urls (batch pipeline, truncated to 50) or the VOD generator's
fetch_m3u_urls returns has a URL that ends case-insensitively in .mp4 or
.mkv. -/
theorem c10_parser_returns_only_supported_urls (unidec : List Char → List Char)
    (lines : List (List Char)) (g : List Char) :
    (∀ e ∈ fetch_m3u_urls unidec lines g, supportedUrl e.url = true) ∧
    (∀ e ∈ fetch_m3u_urls_vod unidec lines g, supportedUrl e.url = true) := by
  constructor
  · intro e he
    exact parseLoop_supported unidec lines g [] (by simp) e
      (List.take_subset MAX_VIDEOS_PER_SOURCE _ he)
  · intro e he
    exact parseLoop_supported unidec lines g [] (by simp) e he

-- C10 witnessed on a concrete two-line document producing one entry.
unseal ConvertToHls.parseLoop in
theorem c10_parser_returns_only_supported_urls_witness :
    supportedUrl "http://h/x.mp4".toList = true :=
  (c10_parser_returns_only_supported_urls id
    ["#EXTINF:-1,A".toList, "http://h/x.mp4".toList] "G".toList).2
    ⟨"http://h/x.mp4".toList, "A".toList, DEFAULT_LOGO.toList, "G".toList⟩
    (by decide)

/-- C9 amended, witnessed at the missing-file and parsed-object states. -/
theorem c9_load_degrades_witness :
    load_converted_videos LedgerFile.missing = Json.obj [] ∧
    load_converted_videos (LedgerFile.parsed (Json.obj [("k", Json.null)]))
      = Json.obj [("k", Json.null)] :=
  ⟨(c9_load_degrades_to_empty_mapping LedgerFile.missing).1 rfl,
   (c9_load_degrades_to_empty_mapping
      (LedgerFile.parsed (Json.obj [("k", Json.null)]))).2.2.1 [("k", Json.null)] rfl⟩

-- C3 counterexample: with one immediate child of the cache root and one
-- directory nested inside it, the walk collects both, so eviction selects
-- one directory for deletion — the nested grandchild, which is not an
-- immediate child at all — while deleting the oldest floor(1/2) = 0 of the
-- immediate children would delete nothing.
unseal List.merge List.mergeSort in
theorem c3_walk_selects_nested_directory :
    (foldersToDelete cacheOverBudget).map DirTree.mtime = [1] ∧
    cacheOverBudget.subs.length / 2 = 0 ∧
    cacheOverBudget.subs.map DirTree.mtime = [2] :=
  ⟨rfl, rfl, rfl⟩

/-- C3 amended: when the total byte footprint exceeds the budget,
eviction selects for recursive deletion exactly the oldest floor(N/2)
(ascending by last-modified time) of the N descendant directories of the
cache root at every depth, as collected by the walk — not only the
immediate children; when the footprint does not exceed the budget,
nothing is deleted.  Stated for caches whose directory mtimes are
pairwise distinct. -/
theorem c3_eviction_selects_oldest_half_of_walk (root : DirTree)
    (hnd : (root.walkDirs.map DirTree.mtime).Nodup) :
    (overBudget root = false → foldersToDelete root = []) ∧
    (overBudget root = true →
      (foldersToDelete root).length = root.walkDirs.length / 2 ∧
      (∀ d ∈ foldersToDelete root, d ∈ root.walkDirs) ∧
      (∀ d ∈ foldersToDelete root, ∀ e ∈ root.walkDirs,
        e ∉ foldersToDelete root → d.mtime < e.mtime)) := by
  constructor
  · intro h
    simp [foldersToDelete, h]
  · intro h
    have hle : ∀ a b c : DirTree,
        (fun a b => decide (a.mtime ≤ b.mtime)) a b = true →
        (fun a b => decide (a.mtime ≤ b.mtime)) b c = true →
        (fun a b => decide (a.mtime ≤ b.mtime)) a c = true := by
      intro a b c hab hbc
      simp only [decide_eq_true_eq] at hab hbc ⊢
      exact le_trans hab hbc
    have htot : ∀ a b : DirTree,
        ((fun a b => decide (a.mtime ≤ b.mtime)) a b ||
         (fun a b => decide (a.mtime ≤ b.mtime)) b a) = true := by
      intro a b
      simp only [Bool.or_eq_true, decide_eq_true_eq]
      exact Nat.le_total a.mtime b.mtime
    have hperm := List.mergeSort_perm root.walkDirs
      (fun a b => decide (a.mtime ≤ b.mtime))
    have hsorted := List.sorted_mergeSort hle htot root.walkDirs
    have hfold : foldersToDelete root =
        (root.walkDirs.mergeSort (fun a b => decide (a.mtime ≤ b.mtime))).take
          (root.walkDirs.length / 2) := by
      simp [foldersToDelete, h]
    refine ⟨?_, ?_, ?_⟩
    · rw [hfold, List.length_take, hperm.length_eq]
      exact Nat.min_eq_left (Nat.div_le_self _ _)
    · intro d hd
      rw [hfold] at hd
      exact hperm.subset (List.take_subset _ _ hd)
    · intro d hd e heL heN
      rw [hfold] at hd heN
      have heS : e ∈ root.walkDirs.mergeSort (fun a b => decide (a.mtime ≤ b.mtime)) :=
        hperm.symm.subset heL
      have hsplit := List.take_append_drop (root.walkDirs.length / 2)
        (root.walkDirs.mergeSort (fun a b => decide (a.mtime ≤ b.mtime)))
      have heD : e ∈ (root.walkDirs.mergeSort
          (fun a b => decide (a.mtime ≤ b.mtime))).drop (root.walkDirs.length / 2) := by
        rcases List.mem_append.mp (by rw [hsplit]; exact heS) with h1 | h1
        · exact absurd h1 heN
        · exact h1
      have hcross : ∀ a ∈ (root.walkDirs.mergeSort
            (fun a b => decide (a.mtime ≤ b.mtime))).take (root.walkDirs.length / 2),
          ∀ b ∈ (root.walkDirs.mergeSort
            (fun a b => decide (a.mtime ≤ b.mtime))).drop (root.walkDirs.length / 2),
          (fun a b => decide (a.mtime ≤ b.mtime)) a b = true := by
        have := hsorted
        rw [← hsplit] at this
        exact (List.pairwise_append.mp this).2.2
      have hlee : d.mtime ≤ e.mtime := by
        have := hcross d hd e heD
        simpa using this
      have hnds : ((root.walkDirs.mergeSort
          (fun a b => decide (a.mtime ≤ b.mtime))).map DirTree.mtime).Nodup :=
        ((hperm.map DirTree.mtime).nodup_iff).mpr hnd
      have hne : d.mtime ≠ e.mtime := by
        rw [← hsplit, List.map_append] at hnds
        have hdisj := (List.nodup_append.mp hnds).2.2
        exact fun hcon => hdisj (List.mem_map_of_mem DirTree.mtime hd)
          (hcon ▸ List.mem_map_of_mem DirTree.mtime heD)
      exact lt_of_le_of_ne hlee hne

-- C3 amended, witnessed on the concrete over-budget cache.
unseal List.merge List.mergeSort in
theorem c3_eviction_selects_oldest_half_witness :
    (foldersToDelete cacheOverBudget).length = cacheOverBudget.walkDirs.length / 2 :=
  ((c3_eviction_selects_oldest_half_of_walk cacheOverBudget (by decide)).2 (by decide)).1

/-- In a ledger whose keys are pairwise distinct, one key determines its
record. -/
theorem ledger_key_unique {l : List (String × LedgerRec)} {u : String}
    {r r' : LedgerRec} (hnd : (l.map Prod.fst).Nodup)
    (h1 : (u, r) ∈ l) (h2 : (u, r') ∈ l) : r' = r := by
  induction l with
  | nil => cases h1
  | cons p tl ih =>
    simp only [List.map_cons, List.nodup_cons] at hnd
    rcases List.mem_cons.mp h1 with e1 | m1 <;> rcases List.mem_cons.mp h2 with e2 | m2
    · exact ((Prod.mk.injEq _ _ _ _).mp (e2.trans e1.symm)).2
    · exfalso
      apply hnd.1
      have hpu : p.1 = u := by rw [← e1]
      rw [hpu]
      exact List.mem_map_of_mem Prod.fst m2
    · exfalso
      apply hnd.1
      have hpu : p.1 = u := by rw [← e2]
      rw [hpu]
      exact List.mem_map_of_mem Prod.fst m1
    · exact ih hnd.2 m1 m2

/-- C7 counterexample: a ledger record whose manifest is gone from disk
but whose stored published URL is truthy is still emitted into the master
playlist (the "Retaining video without m3u8" branch), even though it is
not terminal-success and nothing was converted this run. -/
theorem c7_retained_without_manifest_is_published :
    mainEmits (fun _ => false) [("u", { github_m3u8_url := some "G" })] [] =
      [("u", (extinfLine DEFAULT_LOGO "Unknown" "Video_None", "G"))] ∧
    terminalSuccess (fun _ => false) [("u", { github_m3u8_url := some "G" })] "u" = false :=
  ⟨rfl, rfl⟩

/-- C7 amended: a run always terminates with a published master playlist,
and an asset with a ledger record appears in it exactly when its record
is terminal-success (truthy manifest path still on disk), or its record
stores a truthy published URL even though the manifest is missing
(retained with a warning), or its conversion completed successfully
during this run. -/
theorem c7_playlist_membership (disk : String → Bool)
    (ledger : List (String × LedgerRec)) (succs : List WorkerResult)
    (u : String) (r : LedgerRec)
    (hnd : (ledger.map Prod.fst).Nodup) (hmem : (u, r) ∈ ledger) :
    (∃ it, (u, it) ∈ mainEmits disk ledger succs) ↔
      ((truthy r.m3u8_file && disk (r.m3u8_file.getD "")) = true ∨
       truthy r.github_m3u8_url = true ∨ ∃ v ∈ succs, v.url = u) := by
  constructor
  · rintro ⟨it, hit⟩
    rcases List.mem_append.mp hit with hex | hnew
    · rcases List.mem_flatMap.mp hex with ⟨p, hp, hp2⟩
      rcases List.mem_map.mp hp2 with ⟨it', hit', heq⟩
      have hu : p.1 = u := congrArg Prod.fst heq
      have hpl : (u, p.2) ∈ ledger := by
        rw [← hu]
        exact hp
      have hpr : p.2 = r := ledger_key_unique hnd hmem hpl
      rw [hpr] at hit'
      unfold existingEmit at hit'
      split_ifs at hit' with hc1 hc2
      · exact Or.inl hc1
      · exact Or.inr (Or.inl hc2)
      · cases hit'
    · rcases List.mem_map.mp hnew with ⟨v, hv, heq⟩
      have hu : v.url = u := congrArg Prod.fst heq
      exact Or.inr (Or.inr ⟨v, hv, hu⟩)
  · intro hcase
    have emitNonempty : (∃ x, x ∈ existingEmit disk r) → ∃ it, (u, it) ∈ mainEmits disk ledger succs := by
      rintro ⟨x, hx⟩
      exact ⟨x, List.mem_append.mpr (Or.inl (List.mem_flatMap.mpr
        ⟨(u, r), hmem, List.mem_map.mpr ⟨x, hx, rfl⟩⟩))⟩
    rcases hcase with hc | hc | ⟨v, hv, hvu⟩
    · apply emitNonempty
      apply List.exists_mem_of_ne_nil
      simp only [existingEmit]
      rw [if_pos hc]
      simp
    · apply emitNonempty
      apply List.exists_mem_of_ne_nil
      simp only [existingEmit]
      by_cases hc1 : (truthy r.m3u8_file && disk (r.m3u8_file.getD "")) = true
      · rw [if_pos hc1]; simp
      · rw [if_neg hc1, if_pos hc]; simp
    · exact ⟨(extinfLine v.logo v.group v.title, v.github_m3u8_url),
        List.mem_append.mpr (Or.inr (List.mem_map.mpr ⟨v, hv, by rw [hvu]; rfl⟩))⟩

-- C7 amended, witnessed on the retained-without-manifest ledger.
theorem c7_playlist_membership_witness :
    ∃ it, ("u", it) ∈ mainEmits (fun _ => false)
      [("u", { github_m3u8_url := some "G" })] [] :=
  (c7_playlist_membership (fun _ => false) [("u", { github_m3u8_url := some "G" })]
      [] "u" { github_m3u8_url := some "G" } (by decide) (by simp)).mpr
    (Or.inr (Or.inl (by decide)))
